import Mathlib

/-!
Shallow embedding of the yasp-zeta vault program:
the margin engine in `src/programs/vault-zeta/src/cpi_calls/zeta/zeta_utils.rs`
and the deposit flow in `src/programs/vault-zeta/src/instructions/deposit.rs`.
Machine integers are modelled as `Nat` with explicit `2^64` / `2^128` range
checks where the Rust code performs checked arithmetic or narrowing casts;
Rust panics (failed `unwrap`, `unreachable`, overflow of a checked build) are
modelled as explicit error values.
-/

namespace VaultZeta

/-- Exclusive upper bound of Rust `u64`. -/
def U64 : Nat := 2 ^ 64

/-- Exclusive upper bound of Rust `u128`. -/
def U128 : Nat := 2 ^ 128

/-- Modelled from the spec: the zeta `Kind` enum is declared outside src/;
§3 gives the closed variant set consumed by the margin engine. -/
inductive Kind
  | uninitialized
  | call
  | put
  | future
  deriving DecidableEq

/-- Modelled from the spec: the zeta `Side` enum is declared outside src/;
§3 gives Bid (long), Ask (short), Uninitialized. -/
inductive Side
  | uninitialized
  | bid
  | ask
  deriving DecidableEq

/-- Modelled from the spec: `MarginParameters` is declared outside src/; §3 lists
its percentage fields, named here exactly as `zeta_utils.rs` reads them.
All fields are unsigned fixed-point percentages over the native denominator. -/
structure MarginParameters where
  future_margin_initial : Nat
  future_margin_maintenance : Nat
  option_mark_percentage_long_initial : Nat
  option_spot_percentage_long_initial : Nat
  option_spot_percentage_short_initial : Nat
  option_dynamic_percentage_short_initial : Nat
  option_mark_percentage_long_maintenance : Nat
  option_spot_percentage_long_maintenance : Nat
  option_spot_percentage_short_maintenance : Nat
  option_dynamic_percentage_short_maintenance : Nat
  option_short_put_cap_percentage : Nat
  deriving DecidableEq

/-- Modelled from the spec: `NATIVE_PRECISION_DENOMINATOR` is declared outside
src/; §6 and §8 fix it at 1_000_000. -/
def NATIVE_PRECISION_DENOMINATOR : Nat := 1000000

/-- Modelled from the spec: `PLATFORM_PRECISION` is declared outside src/;
the code comment on `get_native_oracle_price` ("6.dp") and §6 fix it at 6. -/
def PLATFORM_PRECISION : Nat := 6

/-- Error outcomes of the margin-engine functions: the `UnsupportedKind`
variant of `FuzeErrorCode`, a Rust panic from a failed `.unwrap()` on checked
arithmetic or a narrowing cast, and the `unreachable` panic. -/
inductive FuzeError
  | unsupportedKind
  | arithmeticPanic
  | unreachablePanic
  deriving DecidableEq

/-- Rust `u128::checked_mul`. -/
def checkedMul128 (a b : Nat) : Option Nat :=
  if a * b < U128 then some (a * b) else none

/-- Rust `u128::checked_div`: `none` exactly on division by zero. -/
def checkedDiv (a b : Nat) : Option Nat :=
  if b = 0 then none else some (a / b)

/-- Rust `i128::checked_sub`: `none` exactly when the difference leaves the
`i128` range. -/
def checkedSubI128 (a b : Int) : Option Int :=
  if -(2 ^ 127) ≤ a - b ∧ a - b < 2 ^ 127 then some (a - b) else none

/-- Rust `u64::try_from` on a `u128` value. -/
def narrowU64 (n : Nat) : Option Nat :=
  if n < U64 then some n else none

/-- The `checked_mul(...).unwrap().checked_div(...).unwrap()` pattern used
throughout `zeta_utils.rs`: widen, multiply, divide, with `none` on overflow
or division by zero (each `unwrap` of a `none` is a panic at the call site). -/
def mulDiv (a b c : Nat) : Option Nat :=
  (checkedMul128 a b).bind (fun x => checkedDiv x c)

/-- Lift an optional arithmetic result into the error monad: an absent value
is a Rust panic. -/
def liftOpt (o : Option Nat) : Except FuzeError Nat :=
  match o with
  | some v => Except.ok v
  | none => Except.error FuzeError.arithmeticPanic

/-- `get_otm_amount` from `zeta_utils.rs` lines 50-66: subtraction in the
signed `i128` domain via `checked_sub`, clamp at 0 with `.max(0)`, then
narrow back to `u64` with `try_into` (a panic when it does not fit); any kind
other than Call or Put fails with `UnsupportedKind`. -/
def get_otm_amount (spot strike : Nat) (product : Kind) : Except FuzeError Nat :=
  match product with
  | Kind.call =>
    match checkedSubI128 (strike : Int) (spot : Int) with
    | none => Except.error FuzeError.arithmeticPanic
    | some d =>
      if max d 0 < (U64 : Int) then Except.ok (max d 0).toNat
      else Except.error FuzeError.arithmeticPanic
  | Kind.put =>
    match checkedSubI128 (spot : Int) (strike : Int) with
    | none => Except.error FuzeError.arithmeticPanic
    | some d =>
      if max d 0 < (U64 : Int) then Except.ok (max d 0).toNat
      else Except.error FuzeError.arithmeticPanic
  | _ => Except.error FuzeError.unsupportedKind

/-- The `let initial_margin: u128 = match ...` computation of
`get_initial_margin_per_lot` (`zeta_utils.rs` lines 77-123), before the
short-Put cap and the `u64` narrowing: Future uses the future percentage
(ignoring `side`); long options take the min of the spot and mark legs;
short options compute the OTM-discounted dynamic percentage (saturating
subtraction via `unwrap_or(0)`) floored by the static short percentage;
`Side::Uninitialized` hits `unreachable`. -/
def initial_margin_uncapped (spot strike mark : Nat) (product : Kind)
    (side : Side) (mp : MarginParameters) : Except FuzeError Nat :=
  match product with
  | Kind.future =>
    liftOpt (mulDiv spot mp.future_margin_initial NATIVE_PRECISION_DENOMINATOR)
  | Kind.call | Kind.put =>
    match side with
    | Side.bid =>
      match mulDiv spot mp.option_spot_percentage_long_initial
          NATIVE_PRECISION_DENOMINATOR with
      | none => Except.error FuzeError.arithmeticPanic
      | some spotLeg =>
        match mulDiv mark mp.option_mark_percentage_long_initial
            NATIVE_PRECISION_DENOMINATOR with
        | none => Except.error FuzeError.arithmeticPanic
        | some markLeg => Except.ok (min spotLeg markLeg)
    | Side.ask =>
      match get_otm_amount spot strike product with
      | Except.error e => Except.error e
      | Except.ok otm_amount =>
        match mulDiv otm_amount NATIVE_PRECISION_DENOMINATOR spot with
        | none => Except.error FuzeError.arithmeticPanic
        | some otm_pct =>
          liftOpt (mulDiv
            (max (mp.option_dynamic_percentage_short_initial - otm_pct)
              mp.option_spot_percentage_short_initial)
            spot NATIVE_PRECISION_DENOMINATOR)
    | Side.uninitialized => Except.error FuzeError.unreachablePanic
  | Kind.uninitialized => Except.error FuzeError.unsupportedKind

/-- `get_initial_margin_per_lot` from `zeta_utils.rs` lines 69-136: the
uncapped initial margin, then for a short Put the clamp to
`strike * option_short_put_cap_percentage / DENOM`, and the narrowing of the
result to `u64`. -/
def get_initial_margin_per_lot (spot strike mark : Nat) (product : Kind)
    (side : Side) (mp : MarginParameters) : Except FuzeError Nat :=
  match initial_margin_uncapped spot strike mark product side mp with
  | Except.error e => Except.error e
  | Except.ok initial_margin =>
    if product = Kind.put ∧ side = Side.ask then
      match mulDiv strike mp.option_short_put_cap_percentage
          NATIVE_PRECISION_DENOMINATOR with
      | none => Except.error FuzeError.arithmeticPanic
      | some sell_put_cap_margin =>
        liftOpt (narrowU64 (min initial_margin sell_put_cap_margin))
    else
      liftOpt (narrowU64 initial_margin)

/-- The `let maintenance_margin: u128 = match ...` computation of
`get_maintenance_margin_per_lot` (`zeta_utils.rs` lines 147-201):
structurally the same as the initial variant but keyed by a `long : Bool`
flag and reading the maintenance percentage fields. -/
def maintenance_margin_uncapped (spot strike mark : Nat) (product : Kind)
    (long : Bool) (mp : MarginParameters) : Except FuzeError Nat :=
  match product with
  | Kind.future =>
    liftOpt (mulDiv spot mp.future_margin_maintenance NATIVE_PRECISION_DENOMINATOR)
  | Kind.call | Kind.put =>
    if long then
      match mulDiv spot mp.option_spot_percentage_long_maintenance
          NATIVE_PRECISION_DENOMINATOR with
      | none => Except.error FuzeError.arithmeticPanic
      | some spotLeg =>
        match mulDiv mark mp.option_mark_percentage_long_maintenance
            NATIVE_PRECISION_DENOMINATOR with
        | none => Except.error FuzeError.arithmeticPanic
        | some markLeg => Except.ok (min spotLeg markLeg)
    else
      match get_otm_amount spot strike product with
      | Except.error e => Except.error e
      | Except.ok otm_amount =>
        match mulDiv otm_amount NATIVE_PRECISION_DENOMINATOR spot with
        | none => Except.error FuzeError.arithmeticPanic
        | some otm_pct =>
          liftOpt (mulDiv
            (max (mp.option_dynamic_percentage_short_maintenance - otm_pct)
              mp.option_spot_percentage_short_maintenance)
            spot NATIVE_PRECISION_DENOMINATOR)
  | Kind.uninitialized => Except.error FuzeError.unsupportedKind

/-- `get_maintenance_margin_per_lot` from `zeta_utils.rs` lines 139-214: the
uncapped maintenance margin, the short-Put cap when
`product == Put && !long`, and the `u64` narrowing. -/
def get_maintenance_margin_per_lot (spot strike mark : Nat) (product : Kind)
    (long : Bool) (mp : MarginParameters) : Except FuzeError Nat :=
  match maintenance_margin_uncapped spot strike mark product long mp with
  | Except.error e => Except.error e
  | Except.ok maintenance_margin =>
    if product = Kind.put ∧ long = false then
      match mulDiv strike mp.option_short_put_cap_percentage
          NATIVE_PRECISION_DENOMINATOR with
      | none => Except.error FuzeError.arithmeticPanic
      | some sell_put_cap_margin =>
        liftOpt (narrowU64 (min maintenance_margin sell_put_cap_margin))
    else
      liftOpt (narrowU64 maintenance_margin)

/-- Rust `u128::pow` on base 10: panics (here `none`) when the power leaves
the `u128` range, as in a checked build. -/
def pow10u128 (n : Nat) : Option Nat :=
  if 10 ^ n < U128 then some (10 ^ n) else none

/-- The Rust cast `i64 as u128`: two's-complement reinterpretation, so a
negative mantissa becomes `2^128 + p`. -/
def u128OfI64 (p : Int) : Nat :=
  (p % ((2 : Int) ^ 128)).toNat

/-- The `(-expo).try_into::<u32>()` step of the oracle readers: an `i32`
exponent negated always fits the width of `u32`, so the conversion fails
exactly when `-expo` is negative, i.e. when `expo > 0`. -/
def negExpoU32 (expo : Int) : Option Nat :=
  if 0 ≤ -expo then some (-expo).toNat else none

/-- `get_oracle_price` from `zeta_utils.rs` lines 232-241, with the oracle
account load abstracted into its extracted `(price, expo)` pair: widen the
mantissa to `u128` by cast, multiply by `10^precision` (checked), divide by
`10^(-expo)` (exponent conversion and power both able to panic), then narrow
into `i128`. -/
def get_oracle_price (price expo : Int) (precision : Nat) : Except FuzeError Int :=
  match pow10u128 precision with
  | none => Except.error FuzeError.arithmeticPanic
  | some mulPow =>
    match checkedMul128 (u128OfI64 price) mulPow with
    | none => Except.error FuzeError.arithmeticPanic
    | some m =>
      match negExpoU32 expo with
      | none => Except.error FuzeError.arithmeticPanic
      | some ne =>
        match pow10u128 ne with
        | none => Except.error FuzeError.arithmeticPanic
        | some divPow =>
          match checkedDiv m divPow with
          | none => Except.error FuzeError.arithmeticPanic
          | some d =>
            if d < 2 ^ 127 then Except.ok (d : Int)
            else Except.error FuzeError.arithmeticPanic

/-- `get_native_oracle_price` from `zeta_utils.rs` lines 221-230: the same
computation at `PLATFORM_PRECISION`, narrowed to `u64` instead of `i128`. -/
def get_native_oracle_price (price expo : Int) : Except FuzeError Nat :=
  match pow10u128 PLATFORM_PRECISION with
  | none => Except.error FuzeError.arithmeticPanic
  | some mulPow =>
    match checkedMul128 (u128OfI64 price) mulPow with
    | none => Except.error FuzeError.arithmeticPanic
    | some m =>
      match negExpoU32 expo with
      | none => Except.error FuzeError.arithmeticPanic
      | some ne =>
        match pow10u128 ne with
        | none => Except.error FuzeError.arithmeticPanic
        | some divPow =>
          match checkedDiv m divPow with
          | none => Except.error FuzeError.arithmeticPanic
          | some d =>
            match narrowU64 d with
            | none => Except.error FuzeError.arithmeticPanic
            | some v => Except.ok v

/-- The vault fields the deposit flow reads and writes
(`total_deposit`, `deposit_limit`, both `u64`). -/
structure Vault where
  total_deposit : Nat
  deposit_limit : Nat
  deriving DecidableEq

/-- Error outcomes of the deposit instruction: `VaultError::VaultIsFull`,
abstract failures of the three external calls (token approve, lending-market
deposit, share mint), and an arithmetic panic (failed checked op or overflow
of the guard addition in a checked build). -/
inductive DepositError
  | vaultIsFull
  | approveFailed
  | depositLiquidityFailed
  | mintFailed
  | arithmeticPanic
  deriving DecidableEq

/-- Rust `u64` checked addition. -/
def checkedAdd64 (a b : Nat) : Option Nat :=
  if a + b < U64 then some (a + b) else none

/-- The environment a deposit call runs against: outcomes of the opaque
external calls and the collaborator-reported quantities `get_shares` reads
(`shares_mint.supply` and the `for_underlying` value, whose failure is a
panic at the `.unwrap()`). -/
structure DepositEnv where
  approve_ok : Bool
  deposit_liquidity_ok : Bool
  mint_ok : Bool
  shares_mint_supply : Nat
  total_assets : Option Nat

/-- Modelled from the spec: the `ratio!` macro is declared outside src/;
§4.4 gives `shares = amount * totalShareSupply / totalUnderlyingValue` and
§4.1 requires widening to the double-width type, checked multiply, truncating
divide, and a checked narrow back. -/
def ratioChecked (amount supply assets : Nat) : Option Nat :=
  (checkedMul128 amount supply).bind (fun x => (checkedDiv x assets).bind narrowU64)

/-- `DepositToVault::get_shares` from `deposit.rs` lines 106-119: unwrap the
underlying value reported by `for_underlying`, then either the proportional
`ratio!` (when supply is positive, unwrapped) or the 1:1 first-deposit rule. -/
def get_shares (env : DepositEnv) (amount : Nat) : Except DepositError Nat :=
  match env.total_assets with
  | none => Except.error DepositError.arithmeticPanic
  | some total_assets =>
    if 0 < env.shares_mint_supply then
      match ratioChecked amount env.shares_mint_supply total_assets with
      | none => Except.error DepositError.arithmeticPanic
      | some shares => Except.ok shares
    else
      Except.ok amount

/-- Modelled from the spec: `Vault::after_deposit` is declared outside src/;
§4.5 step 6 says it updates `vault.totalDeposit += amount` with checked
arithmetic (§4.1). -/
def after_deposit (v : Vault) (amount : Nat) : Except DepositError Vault :=
  match checkedAdd64 v.total_deposit amount with
  | none => Except.error DepositError.arithmeticPanic
  | some s => Except.ok { v with total_deposit := s }

/-- `DepositToVault::deposit` from `deposit.rs` lines 65-79, as explicit state
passing: the result of the instruction together with the vault state it
leaves behind. The guard addition `total_deposit + max_amount_in` is the
source's plain `u64` addition, which the spec (§4.5 step 1) states is checked,
so its overflow is a fatal abort. The external calls and the share
computation run in order; the `total_deposit` update is the final step. -/
def deposit (v : Vault) (env : DepositEnv) (max_amount_in : Nat) :
    Except DepositError Unit × Vault :=
  match checkedAdd64 v.total_deposit max_amount_in with
  | none => (Except.error DepositError.arithmeticPanic, v)
  | some s =>
    if v.deposit_limit < s then
      (Except.error DepositError.vaultIsFull, v)
    else if env.approve_ok = false then
      (Except.error DepositError.approveFailed, v)
    else if env.deposit_liquidity_ok = false then
      (Except.error DepositError.depositLiquidityFailed, v)
    else
      match get_shares env max_amount_in with
      | Except.error e => (Except.error e, v)
      | Except.ok _shares =>
        if env.mint_ok = false then
          (Except.error DepositError.mintFailed, v)
        else
          match after_deposit v max_amount_in with
          | Except.error e => (Except.error e, v)
          | Except.ok v2 => (Except.ok (), v2)

/-- Follows the spec's words (§4.3 `otmAmount`): `max(strike - spot, 0)` for a
Call, `max(spot - strike, 0)` for a Put, here as Nat truncated subtraction.
Used to compare the implementation against the specified formula. -/
def specOtmAmount (spot strike : Nat) (kind : Kind) : Nat :=
  match kind with
  | Kind.call => strike - spot
  | Kind.put => spot - strike
  | _ => 0

/-- Follows the spec's words (§4.3 short side, steps 1-3):
`otmPct = otmAmount * DENOM / spot`, `dynamicPct = max(dynamic - otmPct, 0)`
(truncated subtraction), `marginPct = max(dynamicPct, floor)`. -/
def specShortMarginPct (spot strike : Nat) (kind : Kind)
    (dynamicPct floorPct : Nat) : Nat :=
  max (dynamicPct - specOtmAmount spot strike kind * NATIVE_PRECISION_DENOMINATOR / spot)
    floorPct

/-- Follows the spec's words (§4.3 short side, step 4):
`margin = marginPct * spot / DENOM`, on the initial parameter fields, before
the short-Put cap. -/
def specShortInitialRaw (spot strike : Nat) (kind : Kind)
    (mp : MarginParameters) : Nat :=
  specShortMarginPct spot strike kind mp.option_dynamic_percentage_short_initial
    mp.option_spot_percentage_short_initial * spot / NATIVE_PRECISION_DENOMINATOR

/-- Follows the spec's words (§4.2 `normalizePrice`):
`rawMantissa * 10^targetPrecision / 10^(-rawExponent)` as exact signed integer
arithmetic. Used to compare the oracle readers against the specified formula. -/
def specNormalizePrice (m e : Int) (p : Nat) : Int :=
  m * 10 ^ p / 10 ^ (-e).toNat

set_option maxRecDepth 100000

/-! Helper lemmas shared by the claim theorems. -/

theorem mulDiv_eq_some {a b c v : Nat} :
    mulDiv a b c = some v ↔ a * b < U128 ∧ c ≠ 0 ∧ v = a * b / c := by
  unfold mulDiv checkedMul128 checkedDiv
  constructor
  · intro h
    by_cases h1 : a * b < U128
    · by_cases h2 : c = 0
      · simp [h1, h2] at h
      · simp [h1, h2] at h
        exact ⟨h1, h2, h.symm⟩
    · simp [h1] at h
  · rintro ⟨h1, h2, rfl⟩
    simp [h1, h2]

theorem liftOpt_narrow_eq_ok {x v : Nat} :
    liftOpt (narrowU64 x) = Except.ok v ↔ x < U64 ∧ v = x := by
  unfold liftOpt narrowU64
  by_cases h : x < U64
  · simp [h, eq_comm]
  · simp [h]

theorem get_otm_call_eq {spot strike : Nat} (hs : spot < U64) (hk : strike < U64) :
    get_otm_amount spot strike Kind.call = Except.ok (strike - spot) := by
  have hb : -(2 ^ 127 : Int) ≤ (strike : Int) - spot ∧ (strike : Int) - spot < 2 ^ 127 := by
    unfold U64 at hs hk
    omega
  have e1 : checkedSubI128 (strike : Int) (spot : Int) = some ((strike : Int) - spot) := by
    unfold checkedSubI128
    rw [if_pos hb]
  have hlt : max ((strike : Int) - spot) 0 < (U64 : Int) := by
    unfold U64 at hk ⊢
    push_cast
    omega
  have htn : (max ((strike : Int) - spot) 0).toNat = strike - spot := by
    omega
  unfold get_otm_amount
  simp only [e1, if_pos hlt, htn]

theorem get_otm_put_eq {spot strike : Nat} (hs : spot < U64) (hk : strike < U64) :
    get_otm_amount spot strike Kind.put = Except.ok (spot - strike) := by
  have hb : -(2 ^ 127 : Int) ≤ (spot : Int) - strike ∧ (spot : Int) - strike < 2 ^ 127 := by
    unfold U64 at hs hk
    omega
  have e1 : checkedSubI128 (spot : Int) (strike : Int) = some ((spot : Int) - strike) := by
    unfold checkedSubI128
    rw [if_pos hb]
  have hlt : max ((spot : Int) - strike) 0 < (U64 : Int) := by
    unfold U64 at hs ⊢
    push_cast
    omega
  have htn : (max ((spot : Int) - strike) 0).toNat = spot - strike := by
    omega
  unfold get_otm_amount
  simp only [e1, if_pos hlt, htn]

theorem liftOpt_eq_ok {o : Option Nat} {v : Nat} :
    liftOpt o = Except.ok v ↔ o = some v := by
  unfold liftOpt
  cases o <;> simp

theorem mulDiv_zero_div {a b : Nat} : mulDiv a b 0 = none := by
  unfold mulDiv checkedMul128 checkedDiv
  by_cases h : a * b < U128 <;> simp [h]

theorem mulDiv_denom_spot_eq {x spot : Nat} (hx : x < U64) (hpos : 0 < spot) :
    mulDiv x NATIVE_PRECISION_DENOMINATOR spot
      = some (x * NATIVE_PRECISION_DENOMINATOR / spot) := by
  apply mulDiv_eq_some.mpr
  refine ⟨?_, by omega, rfl⟩
  have h64 : U64 = 18446744073709551616 := by norm_num [U64]
  have h128 : U128 = 340282366920938463463374607431768211456 := by norm_num [U128]
  unfold NATIVE_PRECISION_DENOMINATOR
  rw [h128]
  rw [h64] at hx
  omega

theorem initial_uncapped_ask_call_eq (spot strike mark : Nat) (mp : MarginParameters) :
    initial_margin_uncapped spot strike mark Kind.call Side.ask mp
      = match get_otm_amount spot strike Kind.call with
        | Except.error e => Except.error e
        | Except.ok otm_amount =>
          match mulDiv otm_amount NATIVE_PRECISION_DENOMINATOR spot with
          | none => Except.error FuzeError.arithmeticPanic
          | some otm_pct =>
            liftOpt (mulDiv
              (max (mp.option_dynamic_percentage_short_initial - otm_pct)
                mp.option_spot_percentage_short_initial)
              spot NATIVE_PRECISION_DENOMINATOR) := rfl

theorem initial_uncapped_ask_put_eq (spot strike mark : Nat) (mp : MarginParameters) :
    initial_margin_uncapped spot strike mark Kind.put Side.ask mp
      = match get_otm_amount spot strike Kind.put with
        | Except.error e => Except.error e
        | Except.ok otm_amount =>
          match mulDiv otm_amount NATIVE_PRECISION_DENOMINATOR spot with
          | none => Except.error FuzeError.arithmeticPanic
          | some otm_pct =>
            liftOpt (mulDiv
              (max (mp.option_dynamic_percentage_short_initial - otm_pct)
                mp.option_spot_percentage_short_initial)
              spot NATIVE_PRECISION_DENOMINATOR) := rfl

theorem get_initial_of_uncapped_error (spot strike mark : Nat) (product : Kind)
    (side : Side) (mp : MarginParameters) (e : FuzeError)
    (h : initial_margin_uncapped spot strike mark product side mp = Except.error e) :
    get_initial_margin_per_lot spot strike mark product side mp = Except.error e := by
  unfold get_initial_margin_per_lot
  simp only [h]

/-! Claim theorems. -/

/-- C5: for u64 inputs, `get_otm_amount` returns `max(strike - spot, 0)` for a
Call and `max(spot - strike, 0)` for a Put (the Nat truncated subtractions,
shown equal to the signed-wide-domain clamps), is monotonic in its inputs,
and fails with `UnsupportedKind` on every other kind. -/
theorem C5_otm_amount (spot strike : Nat) (hs : spot < U64) (hk : strike < U64) :
    get_otm_amount spot strike Kind.call = Except.ok (strike - spot)
    ∧ get_otm_amount spot strike Kind.put = Except.ok (spot - strike)
    ∧ ((strike - spot : Nat) : Int) = max ((strike : Int) - (spot : Int)) 0
    ∧ ((spot - strike : Nat) : Int) = max ((spot : Int) - (strike : Int)) 0
    ∧ (∀ spot' strike' v v', spot' ≤ spot → strike ≤ strike' → spot' < U64 → strike' < U64 →
        get_otm_amount spot strike Kind.call = Except.ok v →
        get_otm_amount spot' strike' Kind.call = Except.ok v' → v ≤ v')
    ∧ (∀ spot' strike' v v', spot ≤ spot' → strike' ≤ strike → spot' < U64 → strike' < U64 →
        get_otm_amount spot strike Kind.put = Except.ok v →
        get_otm_amount spot' strike' Kind.put = Except.ok v' → v ≤ v')
    ∧ get_otm_amount spot strike Kind.future = Except.error FuzeError.unsupportedKind
    ∧ get_otm_amount spot strike Kind.uninitialized = Except.error FuzeError.unsupportedKind := by
  refine ⟨get_otm_call_eq hs hk, get_otm_put_eq hs hk, by omega, by omega, ?_, ?_, rfl, rfl⟩
  · intro spot' strike' v v' h1 h2 hs' hk' hv hv'
    rw [get_otm_call_eq hs hk] at hv
    rw [get_otm_call_eq hs' hk'] at hv'
    simp only [Except.ok.injEq] at hv hv'
    omega
  · intro spot' strike' v v' h1 h2 hs' hk' hv hv'
    rw [get_otm_put_eq hs hk] at hv
    rw [get_otm_put_eq hs' hk'] at hv'
    simp only [Except.ok.injEq] at hv hv'
    omega

/-- Witness for C5 at spot = 70, strike = 100. -/
theorem C5_otm_amount_witness :
    get_otm_amount 70 100 Kind.call = Except.ok 30
    ∧ get_otm_amount 70 100 Kind.put = Except.ok 0 :=
  ⟨(C5_otm_amount 70 100 (by decide) (by decide)).1,
   (C5_otm_amount 70 100 (by decide) (by decide)).2.1⟩

/-- C3: whenever the initial or maintenance margin of a short Put
(`side = Ask` respectively `long = false`) returns a value, that value is at
most `strike * option_short_put_cap_percentage / DENOM`. -/
theorem C3_short_put_cap (spot strike mark : Nat) (mp : MarginParameters)
    (_hspot : 0 < spot) :
    (∀ m, get_initial_margin_per_lot spot strike mark Kind.put Side.ask mp = Except.ok m →
      m ≤ strike * mp.option_short_put_cap_percentage / NATIVE_PRECISION_DENOMINATOR)
    ∧ (∀ m, get_maintenance_margin_per_lot spot strike mark Kind.put false mp = Except.ok m →
      m ≤ strike * mp.option_short_put_cap_percentage / NATIVE_PRECISION_DENOMINATOR) := by
  constructor
  · intro m hok
    unfold get_initial_margin_per_lot at hok
    cases him : initial_margin_uncapped spot strike mark Kind.put Side.ask mp with
    | error e => simp [him] at hok
    | ok im =>
      simp only [him] at hok
      rw [if_pos ⟨trivial, trivial⟩] at hok
      cases hc : mulDiv strike mp.option_short_put_cap_percentage NATIVE_PRECISION_DENOMINATOR with
      | none => simp [hc] at hok
      | some cap =>
        simp only [hc] at hok
        obtain ⟨hlt, rfl⟩ := liftOpt_narrow_eq_ok.mp hok
        obtain ⟨_, _, rfl⟩ := mulDiv_eq_some.mp hc
        exact min_le_right _ _
  · intro m hok
    unfold get_maintenance_margin_per_lot at hok
    cases him : maintenance_margin_uncapped spot strike mark Kind.put false mp with
    | error e => simp [him] at hok
    | ok im =>
      simp only [him] at hok
      rw [if_pos ⟨trivial, trivial⟩] at hok
      cases hc : mulDiv strike mp.option_short_put_cap_percentage NATIVE_PRECISION_DENOMINATOR with
      | none => simp [hc] at hok
      | some cap =>
        simp only [hc] at hok
        obtain ⟨hlt, rfl⟩ := liftOpt_narrow_eq_ok.mp hok
        obtain ⟨_, _, rfl⟩ := mulDiv_eq_some.mp hc
        exact min_le_right _ _

/-- Witness for C3 at the spec's §8 scenario (spot 100_000000, strike
90_000000, cap percentage 200000): the returned initial margin 18_000000 is
at most the cap value. -/
theorem C3_short_put_cap_witness :
    18000000 ≤ 90000000 * 200000 / NATIVE_PRECISION_DENOMINATOR :=
  (C3_short_put_cap 100000000 90000000 12000000
    ⟨0, 0, 0, 0, 100000, 500000, 0, 0, 50000, 250000, 200000⟩
    (by decide)).1 18000000 (by rfl)

/-- C8 counterexample: with `kind = Future`, `side = Uninitialized` does NOT
fault — the Future branch never inspects `side`, and the engine returns the
numeric future margin (here spot 1_000000 at 10 percent gives 100000). -/
theorem C8_counterexample :
    get_initial_margin_per_lot 1000000 0 0 Kind.future Side.uninitialized
      ⟨100000, 0, 0, 0, 0, 0, 0, 0, 0, 0, 0⟩ = Except.ok 100000 := rfl

/-- C8 amended: `Side::Uninitialized` is a fatal invalid-state error
(`unreachable` panic) for Call and Put only; for Future the side argument is
ignored entirely and a numeric margin is returned as for any other side. -/
theorem C8_uninitialized_side (spot strike mark : Nat) (mp : MarginParameters)
    (side : Side) :
    get_initial_margin_per_lot spot strike mark Kind.call Side.uninitialized mp
      = Except.error FuzeError.unreachablePanic
    ∧ get_initial_margin_per_lot spot strike mark Kind.put Side.uninitialized mp
      = Except.error FuzeError.unreachablePanic
    ∧ get_initial_margin_per_lot spot strike mark Kind.future side mp
      = get_initial_margin_per_lot spot strike mark Kind.future Side.bid mp :=
  ⟨rfl, rfl, rfl⟩

/-- C4: short option (side = Ask) initial margin follows the spec's step
formula — `otmPct = otmAmount * DENOM / spot`, saturating
`dynamicPct = optionDynamicShortInitial - otmPct`, floor at
`optionSpotShortInitial`, result `marginPct * spot / DENOM` (for a Put then
clamped by the short-Put cap) — and `spot = 0` is a fatal division-by-zero
panic. -/
theorem C4_short_initial_margin (spot strike mark : Nat) (mp : MarginParameters)
    (hs : spot < U64) (hk : strike < U64) :
    (0 < spot →
      specShortMarginPct spot strike Kind.call mp.option_dynamic_percentage_short_initial
          mp.option_spot_percentage_short_initial * spot < U128 →
      specShortInitialRaw spot strike Kind.call mp < U64 →
      get_initial_margin_per_lot spot strike mark Kind.call Side.ask mp
        = Except.ok (specShortInitialRaw spot strike Kind.call mp))
    ∧ (0 < spot →
      specShortMarginPct spot strike Kind.put mp.option_dynamic_percentage_short_initial
          mp.option_spot_percentage_short_initial * spot < U128 →
      strike * mp.option_short_put_cap_percentage < U128 →
      min (specShortInitialRaw spot strike Kind.put mp)
          (strike * mp.option_short_put_cap_percentage / NATIVE_PRECISION_DENOMINATOR) < U64 →
      get_initial_margin_per_lot spot strike mark Kind.put Side.ask mp
        = Except.ok (min (specShortInitialRaw spot strike Kind.put mp)
            (strike * mp.option_short_put_cap_percentage / NATIVE_PRECISION_DENOMINATOR)))
    ∧ (get_initial_margin_per_lot 0 strike mark Kind.call Side.ask mp
        = Except.error FuzeError.arithmeticPanic
      ∧ get_initial_margin_per_lot 0 strike mark Kind.put Side.ask mp
        = Except.error FuzeError.arithmeticPanic) := by
  refine ⟨?_, ?_, ?_, ?_⟩
  · intro hpos hmul hnarrow
    have hotm := get_otm_call_eq hs hk
    have hpct : mulDiv (strike - spot) NATIVE_PRECISION_DENOMINATOR spot
        = some ((strike - spot) * NATIVE_PRECISION_DENOMINATOR / spot) :=
      mulDiv_denom_spot_eq (by omega) hpos
    have hraw : mulDiv
        (max (mp.option_dynamic_percentage_short_initial
          - (strike - spot) * NATIVE_PRECISION_DENOMINATOR / spot)
          mp.option_spot_percentage_short_initial)
        spot NATIVE_PRECISION_DENOMINATOR
        = some (specShortInitialRaw spot strike Kind.call mp) :=
      mulDiv_eq_some.mpr ⟨hmul, by norm_num [NATIVE_PRECISION_DENOMINATOR], rfl⟩
    have hunc : initial_margin_uncapped spot strike mark Kind.call Side.ask mp
        = Except.ok (specShortInitialRaw spot strike Kind.call mp) := by
      rw [initial_uncapped_ask_call_eq]
      simp only [hotm, hpct, hraw, liftOpt]
    unfold get_initial_margin_per_lot
    simp only [hunc]
    rw [if_neg (by simp)]
    exact liftOpt_narrow_eq_ok.mpr ⟨hnarrow, rfl⟩
  · intro hpos hmul hcap hnarrow
    have hotm := get_otm_put_eq hs hk
    have hpct : mulDiv (spot - strike) NATIVE_PRECISION_DENOMINATOR spot
        = some ((spot - strike) * NATIVE_PRECISION_DENOMINATOR / spot) :=
      mulDiv_denom_spot_eq (by omega) hpos
    have hraw : mulDiv
        (max (mp.option_dynamic_percentage_short_initial
          - (spot - strike) * NATIVE_PRECISION_DENOMINATOR / spot)
          mp.option_spot_percentage_short_initial)
        spot NATIVE_PRECISION_DENOMINATOR
        = some (specShortInitialRaw spot strike Kind.put mp) :=
      mulDiv_eq_some.mpr ⟨hmul, by norm_num [NATIVE_PRECISION_DENOMINATOR], rfl⟩
    have hunc : initial_margin_uncapped spot strike mark Kind.put Side.ask mp
        = Except.ok (specShortInitialRaw spot strike Kind.put mp) := by
      rw [initial_uncapped_ask_put_eq]
      simp only [hotm, hpct, hraw, liftOpt]
    have hcapDiv : mulDiv strike mp.option_short_put_cap_percentage
        NATIVE_PRECISION_DENOMINATOR
        = some (strike * mp.option_short_put_cap_percentage / NATIVE_PRECISION_DENOMINATOR) :=
      mulDiv_eq_some.mpr ⟨hcap, by norm_num [NATIVE_PRECISION_DENOMINATOR], rfl⟩
    unfold get_initial_margin_per_lot
    simp only [hunc]
    rw [if_pos ⟨trivial, trivial⟩]
    simp only [hcapDiv]
    exact liftOpt_narrow_eq_ok.mpr ⟨hnarrow, rfl⟩
  · have hotm := get_otm_call_eq (show (0:Nat) < U64 by norm_num [U64]) hk
    apply get_initial_of_uncapped_error
    rw [initial_uncapped_ask_call_eq]
    rw [hotm]
    simp only [mulDiv_zero_div]
  · have hotm := get_otm_put_eq (show (0:Nat) < U64 by norm_num [U64]) hk
    apply get_initial_of_uncapped_error
    rw [initial_uncapped_ask_put_eq]
    rw [hotm]
    simp only [mulDiv_zero_div]

/-- Witness for C4 at the spec's §8 numbers on a Call: OTM amount 0, dynamic
percentage 500000 dominates the 100000 floor, margin 50_000000. -/
theorem C4_short_initial_margin_witness :
    get_initial_margin_per_lot 100000000 90000000 12000000 Kind.call Side.ask
      ⟨0, 0, 0, 0, 100000, 500000, 0, 0, 50000, 250000, 200000⟩
      = Except.ok 50000000 :=
  (C4_short_initial_margin 100000000 90000000 12000000
    ⟨0, 0, 0, 0, 100000, 500000, 0, 0, 50000, 250000, 200000⟩
    (by decide) (by decide)).1 (by decide) (by decide) (by decide)



theorem mulDiv_mono_first {a a' b c v' : Nat} (ha : a ≤ a') (h : mulDiv a' b c = some v') :
    mulDiv a b c = some (a * b / c) ∧ a * b / c ≤ v' := by
  obtain ⟨h1, h2, rfl⟩ := mulDiv_eq_some.mp h
  have hb : a * b < U128 := lt_of_le_of_lt (Nat.mul_le_mul_right _ ha) h1
  exact ⟨mulDiv_eq_some.mpr ⟨hb, h2, rfl⟩, Nat.div_le_div_right (Nat.mul_le_mul_right _ ha)⟩

theorem mulDiv_mono_second {a b b' c v' : Nat} (hb : b ≤ b') (h : mulDiv a b' c = some v') :
    mulDiv a b c = some (a * b / c) ∧ a * b / c ≤ v' := by
  obtain ⟨h1, h2, rfl⟩ := mulDiv_eq_some.mp h
  have hm : a * b ≤ a * b' := Nat.mul_le_mul_left _ hb
  exact ⟨mulDiv_eq_some.mpr ⟨lt_of_le_of_lt hm h1, h2, rfl⟩, Nat.div_le_div_right hm⟩

theorem initial_uncapped_future_eq (spot strike mark : Nat) (side : Side) (mp : MarginParameters) :
    initial_margin_uncapped spot strike mark Kind.future side mp
      = liftOpt (mulDiv spot mp.future_margin_initial NATIVE_PRECISION_DENOMINATOR) := rfl

theorem maintenance_uncapped_future_eq (spot strike mark : Nat) (long : Bool) (mp : MarginParameters) :
    maintenance_margin_uncapped spot strike mark Kind.future long mp
      = liftOpt (mulDiv spot mp.future_margin_maintenance NATIVE_PRECISION_DENOMINATOR) := rfl

theorem initial_uncapped_bid_eq (spot strike mark : Nat) (kind : Kind) (mp : MarginParameters)
    (hkind : kind = Kind.call ∨ kind = Kind.put) :
    initial_margin_uncapped spot strike mark kind Side.bid mp
      = match mulDiv spot mp.option_spot_percentage_long_initial NATIVE_PRECISION_DENOMINATOR with
        | none => Except.error FuzeError.arithmeticPanic
        | some spotLeg =>
          match mulDiv mark mp.option_mark_percentage_long_initial NATIVE_PRECISION_DENOMINATOR with
          | none => Except.error FuzeError.arithmeticPanic
          | some markLeg => Except.ok (min spotLeg markLeg) := by
  rcases hkind with rfl | rfl <;> rfl

theorem maintenance_uncapped_long_eq (spot strike mark : Nat) (kind : Kind) (mp : MarginParameters)
    (hkind : kind = Kind.call ∨ kind = Kind.put) :
    maintenance_margin_uncapped spot strike mark kind true mp
      = match mulDiv spot mp.option_spot_percentage_long_maintenance NATIVE_PRECISION_DENOMINATOR with
        | none => Except.error FuzeError.arithmeticPanic
        | some spotLeg =>
          match mulDiv mark mp.option_mark_percentage_long_maintenance NATIVE_PRECISION_DENOMINATOR with
          | none => Except.error FuzeError.arithmeticPanic
          | some markLeg => Except.ok (min spotLeg markLeg) := by
  rcases hkind with rfl | rfl <;> rfl

theorem initial_uncapped_ask_eq (spot strike mark : Nat) (kind : Kind) (mp : MarginParameters)
    (hkind : kind = Kind.call ∨ kind = Kind.put) :
    initial_margin_uncapped spot strike mark kind Side.ask mp
      = match get_otm_amount spot strike kind with
        | Except.error e => Except.error e
        | Except.ok otm_amount =>
          match mulDiv otm_amount NATIVE_PRECISION_DENOMINATOR spot with
          | none => Except.error FuzeError.arithmeticPanic
          | some otm_pct =>
            liftOpt (mulDiv
              (max (mp.option_dynamic_percentage_short_initial - otm_pct)
                mp.option_spot_percentage_short_initial)
              spot NATIVE_PRECISION_DENOMINATOR) := by
  rcases hkind with rfl | rfl <;> rfl

theorem maintenance_uncapped_short_eq (spot strike mark : Nat) (kind : Kind) (mp : MarginParameters)
    (hkind : kind = Kind.call ∨ kind = Kind.put) :
    maintenance_margin_uncapped spot strike mark kind false mp
      = match get_otm_amount spot strike kind with
        | Except.error e => Except.error e
        | Except.ok otm_amount =>
          match mulDiv otm_amount NATIVE_PRECISION_DENOMINATOR spot with
          | none => Except.error FuzeError.arithmeticPanic
          | some otm_pct =>
            liftOpt (mulDiv
              (max (mp.option_dynamic_percentage_short_maintenance - otm_pct)
                mp.option_spot_percentage_short_maintenance)
              spot NATIVE_PRECISION_DENOMINATOR) := by
  rcases hkind with rfl | rfl <;> rfl



theorem uncapped_maintenance_le_initial (spot strike mark : Nat) (mp : MarginParameters)
    (h1 : mp.future_margin_maintenance ≤ mp.future_margin_initial)
    (h2 : mp.option_spot_percentage_long_maintenance ≤ mp.option_spot_percentage_long_initial)
    (h3 : mp.option_mark_percentage_long_maintenance ≤ mp.option_mark_percentage_long_initial)
    (h4 : mp.option_spot_percentage_short_maintenance ≤ mp.option_spot_percentage_short_initial)
    (h5 : mp.option_dynamic_percentage_short_maintenance ≤ mp.option_dynamic_percentage_short_initial)
    (kind : Kind) :
    (∀ i, initial_margin_uncapped spot strike mark kind Side.bid mp = Except.ok i →
      ∃ m, maintenance_margin_uncapped spot strike mark kind true mp = Except.ok m ∧ m ≤ i)
    ∧ (∀ i, initial_margin_uncapped spot strike mark kind Side.ask mp = Except.ok i →
      ∃ m, maintenance_margin_uncapped spot strike mark kind false mp = Except.ok m ∧ m ≤ i) := by
  cases kind with
  | uninitialized =>
    constructor <;> intro i h <;> simp [show initial_margin_uncapped spot strike mark
      Kind.uninitialized _ mp = Except.error FuzeError.unsupportedKind from rfl] at h
  | future =>
    have hfut : ∀ side long, (∀ i,
        initial_margin_uncapped spot strike mark Kind.future side mp = Except.ok i →
        ∃ m, maintenance_margin_uncapped spot strike mark Kind.future long mp
          = Except.ok m ∧ m ≤ i) := by
      intro side long i h
      rw [initial_uncapped_future_eq] at h
      obtain ⟨hsome, hle⟩ := mulDiv_mono_second h1 (liftOpt_eq_ok.mp h)
      exact ⟨_, by rw [maintenance_uncapped_future_eq]; exact liftOpt_eq_ok.mpr hsome, hle⟩
    exact ⟨hfut Side.bid true, hfut Side.ask false⟩
  | call =>
    refine ⟨?_, ?_⟩
    · intro i h
      rw [initial_uncapped_bid_eq spot strike mark Kind.call mp (Or.inl rfl)] at h
      cases hsl : mulDiv spot mp.option_spot_percentage_long_initial
          NATIVE_PRECISION_DENOMINATOR with
      | none => simp [hsl] at h
      | some spotLeg =>
        simp only [hsl] at h
        cases hml : mulDiv mark mp.option_mark_percentage_long_initial
            NATIVE_PRECISION_DENOMINATOR with
        | none => simp [hml] at h
        | some markLeg =>
          simp only [hml, Except.ok.injEq] at h
          obtain ⟨hsl2, hle2⟩ := mulDiv_mono_second h2 hsl
          obtain ⟨hml2, hle3⟩ := mulDiv_mono_second h3 hml
          refine ⟨min (spot * mp.option_spot_percentage_long_maintenance / NATIVE_PRECISION_DENOMINATOR)
            (mark * mp.option_mark_percentage_long_maintenance / NATIVE_PRECISION_DENOMINATOR), ?_, ?_⟩
          · rw [maintenance_uncapped_long_eq spot strike mark Kind.call mp (Or.inl rfl)]
            simp only [hsl2, hml2]
          · rw [← h]
            exact min_le_min hle2 hle3
    · intro i h
      rw [initial_uncapped_ask_eq spot strike mark Kind.call mp (Or.inl rfl)] at h
      cases hoe : get_otm_amount spot strike Kind.call with
      | error e => simp [hoe] at h
      | ok otm =>
        simp only [hoe] at h
        cases hpc : mulDiv otm NATIVE_PRECISION_DENOMINATOR spot with
        | none => simp [hpc] at h
        | some p =>
          simp only [hpc] at h
          have hpct : max (mp.option_dynamic_percentage_short_maintenance - p)
              mp.option_spot_percentage_short_maintenance
              ≤ max (mp.option_dynamic_percentage_short_initial - p)
              mp.option_spot_percentage_short_initial :=
            max_le_max (Nat.sub_le_sub_right h5 p) h4
          obtain ⟨hsome, hle⟩ := mulDiv_mono_first hpct (liftOpt_eq_ok.mp h)
          refine ⟨_, ?_, hle⟩
          rw [maintenance_uncapped_short_eq spot strike mark Kind.call mp (Or.inl rfl)]
          simp only [hoe, hpc]
          exact liftOpt_eq_ok.mpr hsome
  | put =>
    refine ⟨?_, ?_⟩
    · intro i h
      rw [initial_uncapped_bid_eq spot strike mark Kind.put mp (Or.inr rfl)] at h
      cases hsl : mulDiv spot mp.option_spot_percentage_long_initial
          NATIVE_PRECISION_DENOMINATOR with
      | none => simp [hsl] at h
      | some spotLeg =>
        simp only [hsl] at h
        cases hml : mulDiv mark mp.option_mark_percentage_long_initial
            NATIVE_PRECISION_DENOMINATOR with
        | none => simp [hml] at h
        | some markLeg =>
          simp only [hml, Except.ok.injEq] at h
          obtain ⟨hsl2, hle2⟩ := mulDiv_mono_second h2 hsl
          obtain ⟨hml2, hle3⟩ := mulDiv_mono_second h3 hml
          refine ⟨min (spot * mp.option_spot_percentage_long_maintenance / NATIVE_PRECISION_DENOMINATOR)
            (mark * mp.option_mark_percentage_long_maintenance / NATIVE_PRECISION_DENOMINATOR), ?_, ?_⟩
          · rw [maintenance_uncapped_long_eq spot strike mark Kind.put mp (Or.inr rfl)]
            simp only [hsl2, hml2]
          · rw [← h]
            exact min_le_min hle2 hle3
    · intro i h
      rw [initial_uncapped_ask_eq spot strike mark Kind.put mp (Or.inr rfl)] at h
      cases hoe : get_otm_amount spot strike Kind.put with
      | error e => simp [hoe] at h
      | ok otm =>
        simp only [hoe] at h
        cases hpc : mulDiv otm NATIVE_PRECISION_DENOMINATOR spot with
        | none => simp [hpc] at h
        | some p =>
          simp only [hpc] at h
          have hpct : max (mp.option_dynamic_percentage_short_maintenance - p)
              mp.option_spot_percentage_short_maintenance
              ≤ max (mp.option_dynamic_percentage_short_initial - p)
              mp.option_spot_percentage_short_initial :=
            max_le_max (Nat.sub_le_sub_right h5 p) h4
          obtain ⟨hsome, hle⟩ := mulDiv_mono_first hpct (liftOpt_eq_ok.mp h)
          refine ⟨_, ?_, hle⟩
          rw [maintenance_uncapped_short_eq spot strike mark Kind.put mp (Or.inr rfl)]
          simp only [hoe, hpc]
          exact liftOpt_eq_ok.mpr hsome



theorem C7_maintenance_le_initial (spot strike mark : Nat) (mp : MarginParameters)
    (h1 : mp.future_margin_maintenance ≤ mp.future_margin_initial)
    (h2 : mp.option_spot_percentage_long_maintenance ≤ mp.option_spot_percentage_long_initial)
    (h3 : mp.option_mark_percentage_long_maintenance ≤ mp.option_mark_percentage_long_initial)
    (h4 : mp.option_spot_percentage_short_maintenance ≤ mp.option_spot_percentage_short_initial)
    (h5 : mp.option_dynamic_percentage_short_maintenance ≤ mp.option_dynamic_percentage_short_initial)
    (kind : Kind) :
    (∀ i, get_initial_margin_per_lot spot strike mark kind Side.bid mp = Except.ok i →
      ∃ m, get_maintenance_margin_per_lot spot strike mark kind true mp = Except.ok m ∧ m ≤ i)
    ∧ (∀ i, get_initial_margin_per_lot spot strike mark kind Side.ask mp = Except.ok i →
      ∃ m, get_maintenance_margin_per_lot spot strike mark kind false mp = Except.ok m ∧ m ≤ i) := by
  obtain ⟨hbid, hask⟩ :=
    uncapped_maintenance_le_initial spot strike mark mp h1 h2 h3 h4 h5 kind
  constructor
  · intro i hok
    unfold get_initial_margin_per_lot at hok
    cases him : initial_margin_uncapped spot strike mark kind Side.bid mp with
    | error e => simp [him] at hok
    | ok im =>
      simp only [him] at hok
      rw [if_neg (by simp)] at hok
      obtain ⟨hlt, rfl⟩ := liftOpt_narrow_eq_ok.mp hok
      obtain ⟨m, hm, hle⟩ := hbid i him
      refine ⟨m, ?_, hle⟩
      unfold get_maintenance_margin_per_lot
      simp only [hm]
      rw [if_neg (by simp)]
      exact liftOpt_narrow_eq_ok.mpr ⟨lt_of_le_of_lt hle hlt, rfl⟩
  · intro i hok
    unfold get_initial_margin_per_lot at hok
    cases him : initial_margin_uncapped spot strike mark kind Side.ask mp with
    | error e => simp [him] at hok
    | ok im =>
      simp only [him] at hok
      by_cases hkind : kind = Kind.put
      · subst hkind
        rw [if_pos (by simp)] at hok
        cases hc : mulDiv strike mp.option_short_put_cap_percentage
            NATIVE_PRECISION_DENOMINATOR with
        | none => simp [hc] at hok
        | some cap =>
          simp only [hc] at hok
          obtain ⟨hlt, rfl⟩ := liftOpt_narrow_eq_ok.mp hok
          obtain ⟨m, hm, hle⟩ := hask im him
          refine ⟨min m cap, ?_, min_le_min hle le_rfl⟩
          unfold get_maintenance_margin_per_lot
          simp only [hm]
          rw [if_pos (by simp)]
          simp only [hc]
          exact liftOpt_narrow_eq_ok.mpr
            ⟨lt_of_le_of_lt (min_le_min hle le_rfl) hlt, rfl⟩
      · rw [if_neg (by simp [hkind])] at hok
        obtain ⟨hlt, rfl⟩ := liftOpt_narrow_eq_ok.mp hok
        obtain ⟨m, hm, hle⟩ := hask i him
        refine ⟨m, ?_, hle⟩
        unfold get_maintenance_margin_per_lot
        simp only [hm]
        rw [if_neg (by simp [hkind])]
        exact liftOpt_narrow_eq_ok.mpr ⟨lt_of_le_of_lt hle hlt, rfl⟩

/-- Witness for C7 at the spec's §8 short-Put scenario: initial margin
18_000000, maintenance margin exists and is bounded by it. -/
theorem C7_maintenance_le_initial_witness :
    ∃ m, get_maintenance_margin_per_lot 100000000 90000000 12000000 Kind.put false
      ⟨0, 0, 0, 0, 100000, 500000, 0, 0, 50000, 250000, 200000⟩
      = Except.ok m ∧ m ≤ 18000000 :=
  (C7_maintenance_le_initial 100000000 90000000 12000000
    ⟨0, 0, 0, 0, 100000, 500000, 0, 0, 50000, 250000, 200000⟩
    (by decide) (by decide) (by decide) (by decide) (by decide) Kind.put).2
    18000000 (by rfl)

theorem checkedAdd64_eq_some {a b : Nat} (h : a + b < U64) :
    checkedAdd64 a b = some (a + b) := by
  unfold checkedAdd64
  rw [if_pos h]

theorem checkedAdd64_eq_none {a b : Nat} (h : U64 ≤ a + b) :
    checkedAdd64 a b = none := by
  unfold checkedAdd64
  rw [if_neg (by omega)]

theorem get_shares_error_eq {env : DepositEnv} {a : Nat} {e : DepositError}
    (h : get_shares env a = Except.error e) : e = DepositError.arithmeticPanic := by
  unfold get_shares at h
  cases hta : env.total_assets with
  | none =>
    simp only [hta] at h
    exact (Except.error.inj h).symm
  | some ta =>
    simp only [hta] at h
    by_cases hs : 0 < env.shares_mint_supply
    · rw [if_pos hs] at h
      cases hr : ratioChecked a env.shares_mint_supply ta with
      | none => simp only [hr] at h; exact (Except.error.inj h).symm
      | some sh => simp only [hr] at h; exact absurd h (by simp)
    · rw [if_neg hs] at h
      exact absurd h (by simp)

/-- C1 counterexample: at `total_deposit = deposit_limit = 2^64 - 1` and
deposit amount 1, the guard's addition overflows `u64`; the mathematical sum
exceeds the limit, yet the instruction does not reject with `VaultIsFull` —
it aborts with the arithmetic panic of the checked addition. -/
theorem C1_counterexample :
    (U64 - 1) + 1 > U64 - 1
    ∧ (deposit ⟨U64 - 1, U64 - 1⟩ ⟨true, true, true, 0, some 0⟩ 1).1
        = Except.error DepositError.arithmeticPanic
    ∧ (deposit ⟨U64 - 1, U64 - 1⟩ ⟨true, true, true, 0, some 0⟩ 1).1
        ≠ Except.error DepositError.vaultIsFull := by
  refine ⟨by norm_num [U64], rfl, ?_⟩
  intro h
  rw [show (deposit ⟨U64 - 1, U64 - 1⟩ ⟨true, true, true, 0, some 0⟩ 1).1
      = Except.error DepositError.arithmeticPanic from rfl] at h
  simp at h

/-- C1 amended: when the guard addition does not overflow `u64`, the deposit
rejects with `VaultIsFull` exactly when `totalDeposit + amount` exceeds
`depositLimit`; an overflowing addition fails closed with a fatal arithmetic
abort (not the `VaultIsFull` error); and depositing exactly the remaining
headroom succeeds, bringing `totalDeposit` to exactly `depositLimit`. -/
theorem C1_deposit_limit (v : Vault) (env : DepositEnv) (a : Nat) :
    (v.total_deposit + a < U64 →
      ((deposit v env a).1 = Except.error DepositError.vaultIsFull
        ↔ v.deposit_limit < v.total_deposit + a))
    ∧ (U64 ≤ v.total_deposit + a →
      (deposit v env a).1 = Except.error DepositError.arithmeticPanic)
    ∧ (v.total_deposit ≤ v.deposit_limit → v.deposit_limit < U64 →
      env.approve_ok = true → env.deposit_liquidity_ok = true → env.mint_ok = true →
      (∃ s, get_shares env (v.deposit_limit - v.total_deposit) = Except.ok s) →
      deposit v env (v.deposit_limit - v.total_deposit)
        = (Except.ok (), { v with total_deposit := v.deposit_limit })) := by
  refine ⟨?_, ?_, ?_⟩
  · intro hov
    unfold deposit
    simp only [checkedAdd64_eq_some hov]
    by_cases hl : v.deposit_limit < v.total_deposit + a
    · rw [if_pos hl]
      simp [hl]
    · rw [if_neg hl]
      simp only [hl, iff_false]
      by_cases hap : env.approve_ok = false
      · rw [if_pos hap]
        simp
      · rw [if_neg hap]
        by_cases hdl : env.deposit_liquidity_ok = false
        · rw [if_pos hdl]
          simp
        · rw [if_neg hdl]
          cases hg : get_shares env a with
          | error e =>
            have he := get_shares_error_eq hg
            simp [hg, he]
          | ok s =>
            simp only [hg]
            by_cases hm : env.mint_ok = false
            · rw [if_pos hm]
              simp
            · rw [if_neg hm]
              unfold after_deposit
              simp only [checkedAdd64_eq_some hov]
              simp
  · intro hov
    unfold deposit
    simp only [checkedAdd64_eq_none hov]
  · intro hle hlim hap hdl hm hex
    obtain ⟨s, hg⟩ := hex
    have hov : v.total_deposit + (v.deposit_limit - v.total_deposit) < U64 := by omega
    unfold deposit
    simp only [checkedAdd64_eq_some hov]
    rw [if_neg (by omega)]
    rw [if_neg (by simp [hap])]
    rw [if_neg (by simp [hdl])]
    simp only [hg]
    rw [if_neg (by simp [hm])]
    unfold after_deposit
    simp only [checkedAdd64_eq_some hov]
    have heq : v.total_deposit + (v.deposit_limit - v.total_deposit) = v.deposit_limit := by
      omega
    rw [heq]

/-- Witness for C1: depositing the exact headroom 500 into a vault at
500/1000 fills it to exactly the limit. -/
theorem C1_deposit_limit_witness :
    deposit ⟨500, 1000⟩ ⟨true, true, true, 0, some 0⟩ 500
      = (Except.ok (), ⟨1000, 1000⟩) :=
  (C1_deposit_limit ⟨500, 1000⟩ ⟨true, true, true, 0, some 0⟩ 0).2.2
    (by decide) (by decide) rfl rfl rfl ⟨500, rfl⟩

/-- C6: once past the capacity guard, a failure of the approve step, the
lending-market deposit, the share computation, or the mint returns that
step's error with the vault state — in particular `total_deposit` —
unmodified; the `total_deposit` update is the final step. -/
theorem C6_no_partial_update (v : Vault) (env : DepositEnv) (a : Nat)
    (hov : v.total_deposit + a < U64) (hle : v.total_deposit + a ≤ v.deposit_limit) :
    (env.approve_ok = false →
      deposit v env a = (Except.error DepositError.approveFailed, v))
    ∧ (env.approve_ok = true → env.deposit_liquidity_ok = false →
      deposit v env a = (Except.error DepositError.depositLiquidityFailed, v))
    ∧ (∀ e, env.approve_ok = true → env.deposit_liquidity_ok = true →
      get_shares env a = Except.error e → deposit v env a = (Except.error e, v))
    ∧ (∀ s, env.approve_ok = true → env.deposit_liquidity_ok = true →
      get_shares env a = Except.ok s → env.mint_ok = false →
      deposit v env a = (Except.error DepositError.mintFailed, v)) := by
  refine ⟨?_, ?_, ?_, ?_⟩
  · intro hap
    unfold deposit
    simp only [checkedAdd64_eq_some hov]
    rw [if_neg (by omega)]
    rw [if_pos hap]
  · intro hap hdl
    unfold deposit
    simp only [checkedAdd64_eq_some hov]
    rw [if_neg (by omega)]
    rw [if_neg (by simp [hap])]
    rw [if_pos hdl]
  · intro e hap hdl hg
    unfold deposit
    simp only [checkedAdd64_eq_some hov]
    rw [if_neg (by omega)]
    rw [if_neg (by simp [hap])]
    rw [if_neg (by simp [hdl])]
    simp only [hg]
  · intro s hap hdl hg hm
    unfold deposit
    simp only [checkedAdd64_eq_some hov]
    rw [if_neg (by omega)]
    rw [if_neg (by simp [hap])]
    rw [if_neg (by simp [hdl])]
    simp only [hg]
    rw [if_pos hm]

/-- Witness for C6: a failing approve step on a vault at 0/100 leaves the
vault unchanged and surfaces the approve error. -/
theorem C6_no_partial_update_witness :
    deposit ⟨0, 100⟩ ⟨false, true, true, 0, some 0⟩ 10
      = (Except.error DepositError.approveFailed, ⟨0, 100⟩) :=
  (C6_no_partial_update ⟨0, 100⟩ ⟨false, true, true, 0, some 0⟩ 10
    (by decide) (by decide)).1 rfl

/-- C9 counterexample: a negative mantissa is reinterpreted by the `as u128`
cast as `2^128 - 1`, so `get_oracle_price (-1) (-20) 0` returns the large
positive value `(2^128 - 1) / 10^20` instead of the spec formula's
`-1 * 10^0 / 10^20`. -/
theorem C9_counterexample :
    get_oracle_price (-1) (-20) 0 = Except.ok 3402823669209384634
    ∧ specNormalizePrice (-1) (-20) 0 ≠ 3402823669209384634 :=
  ⟨rfl, by decide⟩

/-- C9 amended: for a non-negative mantissa in the `i64` range and
`expo ≤ 0`, with every checked multiply, power, divide and narrowing in
range, both oracle readers return
`mantissa * 10^precision / 10^(-expo)`; a positive exponent is a fatal
error; a negative mantissa is first reinterpreted as its two's-complement
`u128` value rather than fed to the formula. -/
theorem C9_oracle_normalization (price expo : Int) (precision : Nat)
    (hm : 0 ≤ price) (hp : price < 2 ^ 63) (he : expo ≤ 0)
    (hpowp : 10 ^ precision < U128)
    (hmul : price.toNat * 10 ^ precision < U128)
    (hpowe : 10 ^ (-expo).toNat < U128)
    (hres : price.toNat * 10 ^ precision / 10 ^ (-expo).toNat < 2 ^ 127)
    (hmulN : price.toNat * 10 ^ PLATFORM_PRECISION < U128)
    (hresN : price.toNat * 10 ^ PLATFORM_PRECISION / 10 ^ (-expo).toNat < U64) :
    get_oracle_price price expo precision
      = Except.ok ((price.toNat * 10 ^ precision / 10 ^ (-expo).toNat : Nat) : Int)
    ∧ get_native_oracle_price price expo
      = Except.ok (price.toNat * 10 ^ PLATFORM_PRECISION / 10 ^ (-expo).toNat)
    ∧ (∀ (p e : Int) (pr : Nat), 0 < e →
        get_oracle_price p e pr = Except.error FuzeError.arithmeticPanic)
    ∧ (∀ (p e : Int), 0 < e →
        get_native_oracle_price p e = Except.error FuzeError.arithmeticPanic) := by
  have hwrap : u128OfI64 price = price.toNat := by
    unfold u128OfI64
    rw [Int.emod_eq_of_lt hm (by nlinarith [hp])]
  have e3 : negExpoU32 expo = some (-expo).toNat := by
    unfold negExpoU32
    rw [if_pos (by omega)]
  have e4 : pow10u128 (-expo).toNat = some (10 ^ (-expo).toNat) := by
    unfold pow10u128
    rw [if_pos hpowe]
  refine ⟨?_, ?_, ?_, ?_⟩
  · have e1 : pow10u128 precision = some (10 ^ precision) := by
      unfold pow10u128
      rw [if_pos hpowp]
    have e2 : checkedMul128 (u128OfI64 price) (10 ^ precision)
        = some (price.toNat * 10 ^ precision) := by
      rw [hwrap]
      unfold checkedMul128
      rw [if_pos hmul]
    have e5 : checkedDiv (price.toNat * 10 ^ precision) (10 ^ (-expo).toNat)
        = some (price.toNat * 10 ^ precision / 10 ^ (-expo).toNat) := by
      unfold checkedDiv
      rw [if_neg (by positivity)]
    unfold get_oracle_price
    simp only [e1, e2, e3, e4, e5]
    rw [if_pos hres]
  · have e1 : pow10u128 PLATFORM_PRECISION = some (10 ^ PLATFORM_PRECISION) := by
      unfold pow10u128
      rw [if_pos (by norm_num [PLATFORM_PRECISION, U128])]
    have e2 : checkedMul128 (u128OfI64 price) (10 ^ PLATFORM_PRECISION)
        = some (price.toNat * 10 ^ PLATFORM_PRECISION) := by
      rw [hwrap]
      unfold checkedMul128
      rw [if_pos hmulN]
    have e5 : checkedDiv (price.toNat * 10 ^ PLATFORM_PRECISION) (10 ^ (-expo).toNat)
        = some (price.toNat * 10 ^ PLATFORM_PRECISION / 10 ^ (-expo).toNat) := by
      unfold checkedDiv
      rw [if_neg (by positivity)]
    have e6 : narrowU64 (price.toNat * 10 ^ PLATFORM_PRECISION / 10 ^ (-expo).toNat)
        = some (price.toNat * 10 ^ PLATFORM_PRECISION / 10 ^ (-expo).toNat) := by
      unfold narrowU64
      rw [if_pos hresN]
    unfold get_native_oracle_price
    simp only [e1, e2, e3, e4, e5, e6]
  · intro p e pr h0e
    have hneg : negExpoU32 e = none := by
      unfold negExpoU32
      rw [if_neg (by omega)]
    unfold get_oracle_price
    cases pow10u128 pr with
    | none => rfl
    | some mp2 =>
      simp only [hneg]
      cases checkedMul128 (u128OfI64 p) mp2 <;> rfl
  · intro p e h0e
    have hneg : negExpoU32 e = none := by
      unfold negExpoU32
      rw [if_neg (by omega)]
    unfold get_native_oracle_price
    cases pow10u128 PLATFORM_PRECISION with
    | none => rfl
    | some mp2 =>
      simp only [hneg]
      cases checkedMul128 (u128OfI64 p) mp2 <;> rfl

/-- Witness for C9 at mantissa 5, expo -1, precision 6:
`5 * 10^6 / 10 = 500000`. -/
theorem C9_oracle_normalization_witness :
    get_oracle_price 5 (-1) 6 = Except.ok 500000
    ∧ get_native_oracle_price 5 (-1) = Except.ok 500000 :=
  ⟨(C9_oracle_normalization 5 (-1) 6 (by decide) (by decide) (by decide)
      (by decide) (by decide) (by decide) (by decide) (by decide)
      (by decide)).1,
   (C9_oracle_normalization 5 (-1) 6 (by decide) (by decide) (by decide)
      (by decide) (by decide) (by decide) (by decide) (by decide)
      (by decide)).2.1⟩

theorem ratioChecked_eq_some {a b c v : Nat} :
    ratioChecked a b c = some v ↔ a * b < U128 ∧ c ≠ 0 ∧ a * b / c < U64 ∧ v = a * b / c := by
  unfold ratioChecked checkedMul128 checkedDiv narrowU64
  by_cases h1 : a * b < U128
  · by_cases h2 : c = 0
    · simp [h1, h2]
    · by_cases h3 : a * b / c < U64
      · simp [h1, h2, h3, eq_comm]
      · simp [h1, h2, h3]
  · simp [h1]

theorem ratioChecked_zero_assets {a b : Nat} : ratioChecked a b 0 = none := by
  unfold ratioChecked checkedMul128 checkedDiv
  by_cases h : a * b < U128 <;> simp [h]

/-- C2: the share computation is 1:1 on an empty supply and proportional with
truncation otherwise, including the spec's two concrete scenarios. -/
theorem C2_get_shares (env : DepositEnv) (amount ta : Nat)
    (hta : env.total_assets = some ta) :
    (env.shares_mint_supply = 0 → get_shares env amount = Except.ok amount)
    ∧ (0 < env.shares_mint_supply → 0 < ta →
        amount * env.shares_mint_supply < U128 →
        amount * env.shares_mint_supply / ta < U64 →
        get_shares env amount = Except.ok (amount * env.shares_mint_supply / ta))
    ∧ get_shares ⟨true, true, true, 0, some 0⟩ 1000 = Except.ok 1000
    ∧ get_shares ⟨true, true, true, 1000, some 1500⟩ 500 = Except.ok 333 := by
  refine ⟨?_, ?_, rfl, rfl⟩
  · intro hz
    unfold get_shares
    simp [hta, hz]
  · intro hpos hta0 hmul hnarrow
    unfold get_shares
    simp only [hta]
    rw [if_pos hpos]
    rw [ratioChecked_eq_some.mpr ⟨hmul, by omega, hnarrow, rfl⟩]

/-- Witness for C2 at the spec's second scenario: supply 1000, underlying
value 1500, deposit 500 mints 333 shares. -/
theorem C2_get_shares_witness :
    get_shares ⟨true, true, true, 1000, some 1500⟩ 500 = Except.ok 333 :=
  ((C2_get_shares ⟨true, true, true, 1000, some 1500⟩ 500 1500 rfl).2.1
    (by decide) (by decide) (by decide) (by decide))

/-- C10: with positive share supply and zero reported underlying value the
share computation is a fatal division-by-zero panic inside the proportional
formula; no share count is returned. -/
theorem C10_zero_underlying_panics (env : DepositEnv) (amount : Nat)
    (hsup : 0 < env.shares_mint_supply) (hta : env.total_assets = some 0) :
    get_shares env amount = Except.error DepositError.arithmeticPanic := by
  unfold get_shares
  simp only [hta]
  rw [if_pos hsup]
  rw [ratioChecked_zero_assets]

/-- Witness for C10 at supply 1000, value 0, deposit 7. -/
theorem C10_zero_underlying_panics_witness :
    get_shares ⟨true, true, true, 1000, some 0⟩ 7
      = Except.error DepositError.arithmeticPanic :=
  C10_zero_underlying_panics ⟨true, true, true, 1000, some 0⟩ 7 (by decide) rfl

end VaultZeta
